import Mathlib

/-!
Verification of `pppfy` (`src/pppfy/appstore.py`, class `AppStorePricing`).

Embedding conventions:
* Python `str` is embedded as `List Char` (`PyStr`): Python strings are
  sequences of code points, and Lean `String`'s looping primitives
  (`String.map`, `String.splitOn`, ...) are well-founded recursions that the
  kernel cannot evaluate, so we work on character lists directly.
  `str.lower()` is `pyLower` (ASCII case folding, mirroring the country-name
  data actually involved), `str.strip()` is `pyStrip`, `str.split(",")` is
  `pySplit ','`, `str.endswith(t)` is `List.isSuffixOf`.
* `decimal.Decimal` values are embedded two ways, matching their two uses in
  the source: arithmetic on prices is exact, so prices are `ℚ`; the reference
  price additionally has its *literal decimal representation* inspected with
  `endswith`, so it is kept as a mantissa/scale pair `Dec` whose `Dec.str`
  mirrors `str(Decimal(...))` for plain (non-scientific) literals, the only
  form appearing in the reference-price CSV.
* `Decimal.to_integral_value()` uses the default `ROUND_HALF_EVEN` context
  rounding; it is embedded as `rhe : ℚ → ℤ`.  `Decimal.__mod__` takes the
  sign of the dividend, i.e. `Int.tmod`.  `Decimal` division carries 28
  significant digits, which is exact on the magnitudes involved; we model it
  as exact division in `ℚ`.
* The instance dictionaries (`country_reference_rounded_prices`,
  `country_currency_mapping`, `country_names_map`) are read-only at query
  time and are passed explicitly; dicts are association lists or functions.
* External collaborators (`requests`, `thefuzz.process.extractOne`,
  `CurrencyConverter`) are parameters: the fuzzy matcher is a parameter
  `extractOne` returning a `(best_match, score)` pair, the currency
  converter a parameter `conv`.
-/

/-- Python `str` as a sequence of characters. -/
abbrev PyStr := List Char

/-- `String` literal to `PyStr`, for writing concrete inputs. -/
def strL (s : String) : PyStr := s.data

/-- Python `str.lower()` (ASCII range, as relevant to the data involved). -/
def pyLower (s : PyStr) : PyStr := s.map Char.toLower

/-- Whitespace characters removed by Python `str.strip()`. -/
def pyWhitespace : List Char := [' ', '\t', '\n', '\r']

/-- Python `str.strip()`. -/
def pyStrip (s : PyStr) : PyStr :=
  ((s.dropWhile (· ∈ pyWhitespace)).reverse.dropWhile (· ∈ pyWhitespace)).reverse

/-- Python `str.split(sep)` for a one-character separator. -/
def pySplit (sep : Char) : PyStr → List PyStr
  | [] => [[]]
  | c :: rest =>
    match pySplit sep rest with
    | [] => [[c]]
    | r0 :: rs => if c = sep then [] :: r0 :: rs else (c :: r0) :: rs

/-! ## The `Decimal` reference price

`Dec m s` stands for `Decimal` with value `m / 10^s`, written in plain
notation with `s` digits after the point (`Dec 99 2` is `Decimal("0.99")`,
`Dec 98 0` is `Decimal("98")`), as produced by `Decimal(row["Price"])` in
`load_reference_prices`. -/

structure Dec where
  m : ℤ
  s : ℕ
  deriving DecidableEq

/-- The exact numeric value of the decimal. -/
def Dec.val (d : Dec) : ℚ := (d.m : ℚ) / (10 : ℚ) ^ d.s

/-- `reference_price == reference_price.to_integral_value()`: the value is an
integer. -/
def Dec.isIntegral (d : Dec) : Bool := d.m % (10 : ℤ) ^ d.s = 0

/-- `int(reference_price)` (exact in the integral case, where it is used). -/
def Dec.intVal (d : Dec) : ℤ := d.m / (10 : ℤ) ^ d.s

/-- `str(n)` for an integer `n`. -/
def intStr (n : ℤ) : PyStr :=
  (if n < 0 then ['-'] else []) ++ Nat.toDigits 10 n.natAbs

/-- `str(d)` for a plain-notation decimal: sign, integer digits, and — when
the scale is positive — a point followed by exactly `s` fraction digits. -/
def Dec.str (d : Dec) : PyStr :=
  let sign : PyStr := if d.m < 0 then ['-'] else []
  let a := d.m.natAbs
  if d.s = 0 then sign ++ Nat.toDigits 10 a
  else
    let fd := Nat.toDigits 10 (a % 10 ^ d.s)
    sign ++ Nat.toDigits 10 (a / 10 ^ d.s) ++ ['.'] ++
      List.replicate (d.s - fd.length) '0' ++ fd

/-! ## `round_off_price_to_appstore_format` -/

/-- `Decimal.to_integral_value()` with the default `ROUND_HALF_EVEN`
context rounding: round to the nearest integer, ties to the even one. -/
def rhe (q : ℚ) : ℤ :=
  if q - ⌊q⌋ < 1/2 then ⌊q⌋
  else if 1/2 < q - ⌊q⌋ then ⌊q⌋ + 1
  else if ⌊q⌋ % 2 = 0 then ⌊q⌋ else ⌊q⌋ + 1

/-- The price grid inferred from the reference price: one constructor per
branch of the suffix-classification chain in
`round_off_price_to_appstore_format` (lines 175–218), in source order. -/
inductive Grid where
  | int8 | int99 | int0 | f499 | f49 | f998 | f999 | f99 | f899 | generic
  deriving DecidableEq

/-- The branch of `round_off_price_to_appstore_format` selected by the
reference price: the `endswith` chain of the source, in source order. -/
def classify (ref : Dec) : Grid :=
  if ref.isIntegral then
    let s := intStr ref.intVal
    if List.isSuffixOf (strL "8") s then .int8
    else if List.isSuffixOf (strL "99") s then .int99
    else .int0
  else
    let s := ref.str
    if List.isSuffixOf (strL "4.99") s then .f499
    else if List.isSuffixOf (strL "4.9") s then .f49
    else if List.isSuffixOf (strL "9.98") s then .f998
    else if List.isSuffixOf (strL "9.99") s then .f999
    else if List.isSuffixOf (strL "9.9") s then .f99
    else if List.isSuffixOf (strL "8.99") s then .f899
    else .generic

/-- The candidate list built by `round_off_price_to_appstore_format` for a
given reference price and input price; each arm transcribes the `candidates`
assignment of the corresponding source branch.  `base_price` is
`price.to_integral_value()` and `base_price % Decimal("10")` is `Int.tmod`
(`Decimal.__mod__` keeps the dividend's sign). -/
def candidates (ref : Dec) (price : ℚ) : List ℚ :=
  match classify ref with
  | .int8 => [(rhe (price / 10) : ℚ) * 10 + 8, (rhe (price / 10) : ℚ) * 10 - 2]
  | .int99 => [(rhe (price / 100) : ℚ) * 100 + 99, (rhe (price / 100) : ℚ) * 100 - 1]
  | .int0 => [(rhe (price / 10) : ℚ) * 10]
  | .f499 => [((rhe price - Int.tmod (rhe price) 10 : ℤ) : ℚ) + 499/100]
  | .f49 => [((rhe price - Int.tmod (rhe price) 10 : ℤ) : ℚ) + 49/10]
  | .f998 => [((rhe price - Int.tmod (rhe price) 10 : ℤ) : ℚ) + 998/100,
              ((rhe price - Int.tmod (rhe price) 10 : ℤ) : ℚ) - 2/100]
  | .f999 => [((rhe price - Int.tmod (rhe price) 10 : ℤ) : ℚ) + 999/100,
              ((rhe price - Int.tmod (rhe price) 10 : ℤ) : ℚ) - 1/100]
  | .f99 => [((rhe price - Int.tmod (rhe price) 10 : ℤ) : ℚ) + 99/10,
             ((rhe price - Int.tmod (rhe price) 10 : ℤ) : ℚ) - 1/10]
  | .f899 => [((rhe price - Int.tmod (rhe price) 10 : ℤ) : ℚ) + 899/100,
              ((rhe price - Int.tmod (rhe price) 10 : ℤ) : ℚ) - 101/100]
  | .generic => [(rhe price : ℚ) + 99/100]

/-- Python `min(candidates, key=lambda x: abs(x - price))`: the first
element of minimal absolute distance (`min` keeps the earlier element on
ties).  The `[]` default is never reached: every branch of `candidates`
produces a non-empty list. -/
def pymin (price : ℚ) : List ℚ → ℚ
  | [] => 0
  | c :: cs => cs.foldl (fun acc x => if |x - price| < |acc - price| then x else acc) c

/-- The rounded price (`rounded_price` of the source) for an in-table
reference price. -/
def snap (ref : Dec) (price : ℚ) : ℚ := pymin price (candidates ref price)

/-- Association-list lookup for the instance dictionaries. -/
def lookupD {β : Type} : List (PyStr × β) → PyStr → Option β
  | [], _ => none
  | (k, v) :: rest, c => if k = c then some v else lookupD rest c

/-- `round_off_price_to_appstore_format(self, iso2_code, price)`:
`self.country_reference_rounded_prices` is passed explicitly; a missing
reference price raises `ValueError(f"No reference price found for {iso2_code}")`.
The embedding is pure: the table is only read, never written. -/
def round_off_price_to_appstore_format
    (country_reference_rounded_prices : List (PyStr × Dec))
    (iso2_code : PyStr) (price : ℚ) : Except PyStr ℚ :=
  match lookupD country_reference_rounded_prices iso2_code with
  | none => .error (strL "No reference price found for " ++ iso2_code)
  | some reference_price => .ok (snap reference_price price)

/-! ## `get_country_iso_code`

`self.country_names_map` is an index from ISO code to the set of known
names; resolution lowercases the input, scans the index for a literal
member (first match wins), and otherwise asks `thefuzz`'s
`process.extractOne` — an external collaborator, passed as the parameter
`extractOne` — for the best candidate among all names, accepting it only
above a score of 80.  The source also appends a `(name, match)` record via
`self.log`; the returned triple mirrors that record's
`(iso_code, name, match)` arguments. -/

abbrev NameIndex := List (PyStr × List PyStr)

/-- The exact pass: first `iso_code` whose name set contains `name`
(`for iso_code, names in self.country_names_map.items(): if name in names`). -/
def findDirect : NameIndex → PyStr → Option PyStr
  | [], _ => none
  | (iso, names) :: rest, name =>
    if name ∈ names then some iso else findDirect rest name

/-- The post-fuzzy owner scan: first `iso_code` whose name set contains
`best_match`. -/
def findOwner : NameIndex → PyStr → Option PyStr
  | [], _ => none
  | (iso, names) :: rest, best =>
    if best ∈ names then some iso else findOwner rest best

/-- `all_names = [item for sublist in self.country_names_map.values() for item in sublist]`. -/
def flattenNames (idx : NameIndex) : List PyStr :=
  idx.foldr (fun p acc => p.2 ++ acc) []

/-- `get_country_iso_code(self, name)`; returns the resolved code together
with the `(iso_code, name, match)` record passed to `self.log`. -/
def get_country_iso_code (idx : NameIndex)
    (extractOne : PyStr → List PyStr → PyStr × Nat)
    (name0 : PyStr) : Option PyStr × (Option PyStr × PyStr × PyStr) :=
  let name := pyLower name0
  match findDirect idx name with
  | some iso => (some iso, (some iso, name, name ++ strL "-direct"))
  | none =>
    let bm := extractOne name (flattenNames idx)
    if 80 < bm.2 then
      match findOwner idx bm.1 with
      | some iso => (some iso, (some iso, name, bm.1 ++ strL "-thefuzz"))
      | none => (none, (none, name, strL "no match"))
    else (none, (none, name, strL "no match"))

/-! ## `fetch_appstore_country_currency_mapping`

The scraped table rows are passed as data; `get_country_iso_code` enters
only through the parameter `resolver`.  The mapping is keyed by
`Option PyStr` because the comma branch keys the dict by the *resolved*
code, which is `None` when resolution fails. -/

structure TableRow where
  regionCode : PyStr
  reportRegion : PyStr
  reportCurrency : PyStr
  countriesOrRegions : PyStr

structure CCEntry where
  reportRegion : PyStr
  reportCurrency : PyStr
  regionCode : Option PyStr
  country : PyStr
  deriving DecidableEq

/-- `self.country_currency_mapping` as a map from key to entry. -/
abbrev CCMap := Option PyStr → Option CCEntry

def CCMap.empty : CCMap := fun _ => none

/-- Python dict assignment `mapping[k] = v`. -/
def CCMap.update (m : CCMap) (k : Option PyStr) (v : CCEntry) : CCMap :=
  fun q => if q = k then some v else m q

/-- The body of the inner `for c in country_names` loop of the comma
branch: resolve, warn (no state effect) on failure, skip when the code is
already mapped and the row is an aggregate region, otherwise assign. -/
def processCountry (resolver : PyStr → Option PyStr) (row : TableRow)
    (m : CCMap) (c : PyStr) : CCMap :=
  let iso := resolver c
  if (m iso).isSome ∧ row.regionCode ∈ [strL "EU", strL "LL", strL "WW"] then m
  else m.update iso
    { reportRegion := row.reportRegion, reportCurrency := row.reportCurrency,
      regionCode := iso, country := c }

/-- One iteration of the `for item in data` loop: skip `ZZ`/`Z1` rows,
split multi-country rows and process each country, and key single-country
rows directly by their region code. -/
def processRow (resolver : PyStr → Option PyStr) (m : CCMap) (row : TableRow) : CCMap :=
  if row.regionCode ∈ [strL "ZZ", strL "Z1"] then m
  else if ',' ∈ row.countriesOrRegions then
    (((pySplit ',' row.countriesOrRegions).map pyStrip).foldl
      (processCountry resolver row) m)
  else m.update (some row.regionCode)
    { reportRegion := row.reportRegion, reportCurrency := row.reportCurrency,
      regionCode := some row.regionCode, country := row.countriesOrRegions }

/-- `fetch_appstore_country_currency_mapping(self)` applied to the scraped
rows: builds `self.country_currency_mapping` from an empty dict. -/
def fetch_appstore_country_currency_mapping
    (resolver : PyStr → Option PyStr) (rows : List TableRow) : CCMap :=
  rows.foldl (processRow resolver) CCMap.empty

/-! ## `local_currency_to_appstore_preferred_currency` -/

/-- `self.country_currency_mapping.get(country_iso2_code, {}).get("Report Currency", country_currency)`. -/
def preferredCurrency (mapping : CCMap) (country_iso2_code : PyStr)
    (country_currency : PyStr) : PyStr :=
  match mapping (some country_iso2_code) with
  | some e => e.reportCurrency
  | none => country_currency

/-- `local_currency_to_appstore_preferred_currency(self, country_iso2_code, price, country_currency)`;
`conv` is `self.convert_between_currencies_by_market_xrate` (an external
collaborator: offline table with remote fallback). -/
def local_currency_to_appstore_preferred_currency
    (conv : ℚ → PyStr → PyStr → ℚ) (mapping : CCMap)
    (country_iso2_code : PyStr) (price : ℚ) (country_currency : PyStr) :
    PyStr × ℚ :=
  let appstore_currency := preferredCurrency mapping country_iso2_code country_currency
  if country_currency = appstore_currency then (appstore_currency, price)
  else (appstore_currency, conv price country_currency appstore_currency)

/-! ## Arithmetic toolkit for the rounding proofs -/

lemma rhe_intCast_add_lt (n : ℤ) (c : ℚ) (h0 : 0 ≤ c) (h1 : c < 1/2) :
    rhe ((n : ℚ) + c) = n := by
  have hc : ⌊c⌋ = 0 := Int.floor_eq_zero_iff.mpr ⟨h0, by linarith⟩
  have hf : ⌊(n : ℚ) + c⌋ = n := by rw [Int.floor_int_add, hc, add_zero]
  unfold rhe
  rw [hf, show (n : ℚ) + c - n = c by ring, if_pos h1]

lemma rhe_intCast_add_gt (n : ℤ) (c : ℚ) (h1 : 1/2 < c) (h2 : c < 1) :
    rhe ((n : ℚ) + c) = n + 1 := by
  have hc : ⌊c⌋ = 0 := Int.floor_eq_zero_iff.mpr ⟨by linarith, h2⟩
  have hf : ⌊(n : ℚ) + c⌋ = n := by rw [Int.floor_int_add, hc, add_zero]
  unfold rhe
  rw [hf, show (n : ℚ) + c - n = c by ring, if_neg (by linarith), if_pos h1]

lemma rhe_intCast (n : ℤ) : rhe (n : ℚ) = n := by
  have h := rhe_intCast_add_lt n 0 le_rfl (by norm_num)
  simpa using h

lemma rhe_nonneg (p : ℚ) (hp : 0 ≤ p) : 0 ≤ rhe p := by
  have h0 : 0 ≤ ⌊p⌋ := Int.floor_nonneg.mpr hp
  unfold rhe
  split_ifs <;> omega

/-- `base_price - base_price % 10` is ten times the truncating quotient. -/
lemma sub_tmod_eq (b : ℤ) : b - Int.tmod b 10 = 10 * b.tdiv 10 := by
  have h := Int.tdiv_add_tmod b 10
  omega

lemma tdiv_ten_mul (m : ℤ) : Int.tdiv (10 * m) 10 = m :=
  Int.mul_tdiv_cancel_left m (by norm_num)

lemma tdiv_ten_nonneg (j r : ℤ) (hj : 0 ≤ j) (hr : 0 ≤ r) (hr' : r < 10) :
    Int.tdiv (10 * j + r) 10 = j := by
  rw [Int.tdiv_eq_ediv (by omega) (by norm_num)]
  omega

lemma tdiv_ten_neg_pred (m : ℤ) (hm : m ≤ 0) : Int.tdiv (10 * m - 1) 10 = m := by
  have h : 10 * m - 1 = -(10 * (-m) + 1) := by ring
  rw [h, Int.neg_tdiv, tdiv_ten_nonneg (-m) 1 (by omega) (by omega) (by omega)]
  omega

lemma snap_one (ref : Dec) (p c1 : ℚ) (h : candidates ref p = [c1]) :
    snap ref p = c1 := by
  unfold snap pymin
  rw [h]
  rfl

lemma snap_two (ref : Dec) (p c1 c2 : ℚ) (h : candidates ref p = [c1, c2]) :
    snap ref p = if |c2 - p| < |c1 - p| then c2 else c1 := by
  unfold snap pymin
  rw [h]
  rfl

/-! Fixed points of `snap`, one lemma per grid: any value of the shape that
`snap` itself produces is mapped to itself by a second `snap`. -/

lemma snap_int8_fixed (ref : Dec) (h : classify ref = Grid.int8) (m : ℤ) :
    snap ref ((m : ℚ) * 10 - 2) = (m : ℚ) * 10 - 2 := by
  have hdiv : ((m : ℚ) * 10 - 2) / 10 = ((m - 1 : ℤ) : ℚ) + 4/5 := by
    push_cast; ring
  have hr : rhe (((m : ℚ) * 10 - 2) / 10) = m := by
    rw [hdiv, rhe_intCast_add_gt _ _ (by norm_num) (by norm_num)]
    omega
  have hc : candidates ref ((m : ℚ) * 10 - 2)
      = [(m : ℚ) * 10 + 8, (m : ℚ) * 10 - 2] := by
    unfold candidates
    rw [h, hr]
  rw [snap_two _ _ _ _ hc,
    show ((m : ℚ) * 10 - 2) - ((m : ℚ) * 10 - 2) = 0 by ring,
    show ((m : ℚ) * 10 + 8) - ((m : ℚ) * 10 - 2) = 10 by ring,
    if_pos (by norm_num)]

lemma snap_int99_fixed (ref : Dec) (h : classify ref = Grid.int99) (m : ℤ) :
    snap ref ((m : ℚ) * 100 - 1) = (m : ℚ) * 100 - 1 := by
  have hdiv : ((m : ℚ) * 100 - 1) / 100 = ((m - 1 : ℤ) : ℚ) + 99/100 := by
    push_cast; ring
  have hr : rhe (((m : ℚ) * 100 - 1) / 100) = m := by
    rw [hdiv, rhe_intCast_add_gt _ _ (by norm_num) (by norm_num)]
    omega
  have hc : candidates ref ((m : ℚ) * 100 - 1)
      = [(m : ℚ) * 100 + 99, (m : ℚ) * 100 - 1] := by
    unfold candidates
    rw [h, hr]
  rw [snap_two _ _ _ _ hc,
    show ((m : ℚ) * 100 - 1) - ((m : ℚ) * 100 - 1) = 0 by ring,
    show ((m : ℚ) * 100 + 99) - ((m : ℚ) * 100 - 1) = 100 by ring,
    if_pos (by norm_num)]

lemma snap_int0_fixed (ref : Dec) (h : classify ref = Grid.int0) (m : ℤ) :
    snap ref ((m : ℚ) * 10) = (m : ℚ) * 10 := by
  have hdiv : ((m : ℚ) * 10) / 10 = (m : ℚ) := by ring
  have hr : rhe (((m : ℚ) * 10) / 10) = m := by rw [hdiv, rhe_intCast]
  have hc : candidates ref ((m : ℚ) * 10) = [(m : ℚ) * 10] := by
    unfold candidates
    rw [h, hr]
  exact snap_one _ _ _ hc

lemma snap_f998_fixed (ref : Dec) (h : classify ref = Grid.f998) (m : ℤ) :
    snap ref ((m : ℚ) * 10 - 2/100) = (m : ℚ) * 10 - 2/100 := by
  have hq : (m : ℚ) * 10 - 2/100 = ((10 * m - 1 : ℤ) : ℚ) + 98/100 := by
    push_cast; ring
  have hr : rhe ((m : ℚ) * 10 - 2/100) = 10 * m := by
    rw [hq, rhe_intCast_add_gt _ _ (by norm_num) (by norm_num)]
    omega
  have ht : rhe ((m : ℚ) * 10 - 2/100)
      - Int.tmod (rhe ((m : ℚ) * 10 - 2/100)) 10 = 10 * m := by
    rw [hr, sub_tmod_eq, tdiv_ten_mul]
  have hc : candidates ref ((m : ℚ) * 10 - 2/100)
      = [((10 * m : ℤ) : ℚ) + 998/100, ((10 * m : ℤ) : ℚ) - 2/100] := by
    unfold candidates
    rw [h, ht]
  rw [snap_two _ _ _ _ hc,
    show (((10 * m : ℤ) : ℚ) - 2/100) - ((m : ℚ) * 10 - 2/100) = 0 by push_cast; ring,
    show (((10 * m : ℤ) : ℚ) + 998/100) - ((m : ℚ) * 10 - 2/100) = 10 by push_cast; ring,
    if_pos (by norm_num)]
  push_cast
  ring

lemma snap_f999_fixed (ref : Dec) (h : classify ref = Grid.f999) (m : ℤ) :
    snap ref ((m : ℚ) * 10 - 1/100) = (m : ℚ) * 10 - 1/100 := by
  have hq : (m : ℚ) * 10 - 1/100 = ((10 * m - 1 : ℤ) : ℚ) + 99/100 := by
    push_cast; ring
  have hr : rhe ((m : ℚ) * 10 - 1/100) = 10 * m := by
    rw [hq, rhe_intCast_add_gt _ _ (by norm_num) (by norm_num)]
    omega
  have ht : rhe ((m : ℚ) * 10 - 1/100)
      - Int.tmod (rhe ((m : ℚ) * 10 - 1/100)) 10 = 10 * m := by
    rw [hr, sub_tmod_eq, tdiv_ten_mul]
  have hc : candidates ref ((m : ℚ) * 10 - 1/100)
      = [((10 * m : ℤ) : ℚ) + 999/100, ((10 * m : ℤ) : ℚ) - 1/100] := by
    unfold candidates
    rw [h, ht]
  rw [snap_two _ _ _ _ hc,
    show (((10 * m : ℤ) : ℚ) - 1/100) - ((m : ℚ) * 10 - 1/100) = 0 by push_cast; ring,
    show (((10 * m : ℤ) : ℚ) + 999/100) - ((m : ℚ) * 10 - 1/100) = 10 by push_cast; ring,
    if_pos (by norm_num)]
  push_cast
  ring

lemma snap_f99_fixed (ref : Dec) (h : classify ref = Grid.f99) (m : ℤ) :
    snap ref ((m : ℚ) * 10 - 1/10) = (m : ℚ) * 10 - 1/10 := by
  have hq : (m : ℚ) * 10 - 1/10 = ((10 * m - 1 : ℤ) : ℚ) + 9/10 := by
    push_cast; ring
  have hr : rhe ((m : ℚ) * 10 - 1/10) = 10 * m := by
    rw [hq, rhe_intCast_add_gt _ _ (by norm_num) (by norm_num)]
    omega
  have ht : rhe ((m : ℚ) * 10 - 1/10)
      - Int.tmod (rhe ((m : ℚ) * 10 - 1/10)) 10 = 10 * m := by
    rw [hr, sub_tmod_eq, tdiv_ten_mul]
  have hc : candidates ref ((m : ℚ) * 10 - 1/10)
      = [((10 * m : ℤ) : ℚ) + 99/10, ((10 * m : ℤ) : ℚ) - 1/10] := by
    unfold candidates
    rw [h, ht]
  rw [snap_two _ _ _ _ hc,
    show (((10 * m : ℤ) : ℚ) - 1/10) - ((m : ℚ) * 10 - 1/10) = 0 by push_cast; ring,
    show (((10 * m : ℤ) : ℚ) + 99/10) - ((m : ℚ) * 10 - 1/10) = 10 by push_cast; ring,
    if_pos (by norm_num)]
  push_cast
  ring

lemma snap_f899_fixed (ref : Dec) (h : classify ref = Grid.f899) (m : ℤ) :
    snap ref ((m : ℚ) * 10 - 101/100) = (m : ℚ) * 10 - 101/100 := by
  have hq : (m : ℚ) * 10 - 101/100 = ((10 * m - 2 : ℤ) : ℚ) + 99/100 := by
    push_cast; ring
  have hr : rhe ((m : ℚ) * 10 - 101/100) = 10 * m - 1 := by
    rw [hq, rhe_intCast_add_gt _ _ (by norm_num) (by norm_num)]
    omega
  rcases le_or_lt m 0 with hm | hm
  · have ht : rhe ((m : ℚ) * 10 - 101/100)
        - Int.tmod (rhe ((m : ℚ) * 10 - 101/100)) 10 = 10 * m := by
      rw [hr, sub_tmod_eq, tdiv_ten_neg_pred m hm]
    have hc : candidates ref ((m : ℚ) * 10 - 101/100)
        = [((10 * m : ℤ) : ℚ) + 899/100, ((10 * m : ℤ) : ℚ) - 101/100] := by
      unfold candidates
      rw [h, ht]
    rw [snap_two _ _ _ _ hc,
      show (((10 * m : ℤ) : ℚ) - 101/100) - ((m : ℚ) * 10 - 101/100) = 0 by push_cast; ring,
      show (((10 * m : ℤ) : ℚ) + 899/100) - ((m : ℚ) * 10 - 101/100) = 10 by push_cast; ring,
      if_pos (by norm_num)]
    push_cast
    ring
  · have htd : Int.tdiv (10 * m - 1) 10 = m - 1 := by
      rw [show 10 * m - 1 = 10 * (m - 1) + 9 by ring,
        tdiv_ten_nonneg (m - 1) 9 (by omega) (by omega) (by omega)]
    have ht : rhe ((m : ℚ) * 10 - 101/100)
        - Int.tmod (rhe ((m : ℚ) * 10 - 101/100)) 10 = 10 * (m - 1) := by
      rw [hr, sub_tmod_eq, htd]
    have hc : candidates ref ((m : ℚ) * 10 - 101/100)
        = [((10 * (m - 1) : ℤ) : ℚ) + 899/100, ((10 * (m - 1) : ℤ) : ℚ) - 101/100] := by
      unfold candidates
      rw [h, ht]
    rw [snap_two _ _ _ _ hc,
      show (((10 * (m - 1) : ℤ) : ℚ) - 101/100) - ((m : ℚ) * 10 - 101/100) = -10 by push_cast; ring,
      show (((10 * (m - 1) : ℤ) : ℚ) + 899/100) - ((m : ℚ) * 10 - 101/100) = 0 by push_cast; ring,
      if_neg (by norm_num)]
    push_cast
    ring

lemma snap_f499_fixed (ref : Dec) (h : classify ref = Grid.f499) (j : ℤ)
    (hj : 0 ≤ j) : snap ref ((j : ℚ) * 10 + 499/100) = (j : ℚ) * 10 + 499/100 := by
  have hq : (j : ℚ) * 10 + 499/100 = ((10 * j + 4 : ℤ) : ℚ) + 99/100 := by
    push_cast; ring
  have hr : rhe ((j : ℚ) * 10 + 499/100) = 10 * j + 5 := by
    rw [hq, rhe_intCast_add_gt _ _ (by norm_num) (by norm_num)]
    omega
  have ht : rhe ((j : ℚ) * 10 + 499/100)
      - Int.tmod (rhe ((j : ℚ) * 10 + 499/100)) 10 = 10 * j := by
    rw [hr, sub_tmod_eq, tdiv_ten_nonneg j 5 hj (by omega) (by omega)]
  have hc : candidates ref ((j : ℚ) * 10 + 499/100)
      = [((10 * j : ℤ) : ℚ) + 499/100] := by
    unfold candidates
    rw [h, ht]
  rw [snap_one _ _ _ hc]
  push_cast
  ring

lemma snap_f49_fixed (ref : Dec) (h : classify ref = Grid.f49) (j : ℤ)
    (hj : 0 ≤ j) : snap ref ((j : ℚ) * 10 + 49/10) = (j : ℚ) * 10 + 49/10 := by
  have hq : (j : ℚ) * 10 + 49/10 = ((10 * j + 4 : ℤ) : ℚ) + 9/10 := by
    push_cast; ring
  have hr : rhe ((j : ℚ) * 10 + 49/10) = 10 * j + 5 := by
    rw [hq, rhe_intCast_add_gt _ _ (by norm_num) (by norm_num)]
    omega
  have ht : rhe ((j : ℚ) * 10 + 49/10)
      - Int.tmod (rhe ((j : ℚ) * 10 + 49/10)) 10 = 10 * j := by
    rw [hr, sub_tmod_eq, tdiv_ten_nonneg j 5 hj (by omega) (by omega)]
  have hc : candidates ref ((j : ℚ) * 10 + 49/10)
      = [((10 * j : ℤ) : ℚ) + 49/10] := by
    unfold candidates
    rw [h, ht]
  rw [snap_one _ _ _ hc]
  push_cast
  ring

/-- Idempotence of `snap` away from the generic fallback branch (with
nonnegativity where the single-candidate `4.99`/`4.9` grids need it). -/
lemma snap_idem_off_generic (ref : Dec) (p : ℚ)
    (hgen : classify ref ≠ Grid.generic)
    (hpos : classify ref = Grid.f499 ∨ classify ref = Grid.f49 → 0 ≤ p) :
    snap ref (snap ref p) = snap ref p := by
  cases hg : classify ref with
  | int8 =>
    have hc : candidates ref p
        = [(rhe (p / 10) : ℚ) * 10 + 8, (rhe (p / 10) : ℚ) * 10 - 2] := by
      unfold candidates
      rw [hg]
    rw [snap_two _ _ _ _ hc]
    split_ifs with hd
    · exact snap_int8_fixed ref hg (rhe (p / 10))
    · rw [show (rhe (p / 10) : ℚ) * 10 + 8
          = ((rhe (p / 10) + 1 : ℤ) : ℚ) * 10 - 2 by push_cast; ring]
      exact snap_int8_fixed ref hg (rhe (p / 10) + 1)
  | int99 =>
    have hc : candidates ref p
        = [(rhe (p / 100) : ℚ) * 100 + 99, (rhe (p / 100) : ℚ) * 100 - 1] := by
      unfold candidates
      rw [hg]
    rw [snap_two _ _ _ _ hc]
    split_ifs with hd
    · exact snap_int99_fixed ref hg (rhe (p / 100))
    · rw [show (rhe (p / 100) : ℚ) * 100 + 99
          = ((rhe (p / 100) + 1 : ℤ) : ℚ) * 100 - 1 by push_cast; ring]
      exact snap_int99_fixed ref hg (rhe (p / 100) + 1)
  | int0 =>
    have hc : candidates ref p = [(rhe (p / 10) : ℚ) * 10] := by
      unfold candidates
      rw [hg]
    rw [snap_one _ _ _ hc]
    exact snap_int0_fixed ref hg (rhe (p / 10))
  | f499 =>
    have hp : 0 ≤ p := hpos (Or.inl hg)
    have hj : 0 ≤ (rhe p).tdiv 10 :=
      Int.tdiv_nonneg (rhe_nonneg p hp) (by norm_num)
    have hc : candidates ref p
        = [((rhe p - Int.tmod (rhe p) 10 : ℤ) : ℚ) + 499/100] := by
      unfold candidates
      rw [hg]
    rw [snap_one _ _ _ hc]
    rw [show ((rhe p - Int.tmod (rhe p) 10 : ℤ) : ℚ) + 499/100
        = (((rhe p).tdiv 10 : ℤ) : ℚ) * 10 + 499/100 by
      rw [sub_tmod_eq]; push_cast; ring]
    exact snap_f499_fixed ref hg _ hj
  | f49 =>
    have hp : 0 ≤ p := hpos (Or.inr hg)
    have hj : 0 ≤ (rhe p).tdiv 10 :=
      Int.tdiv_nonneg (rhe_nonneg p hp) (by norm_num)
    have hc : candidates ref p
        = [((rhe p - Int.tmod (rhe p) 10 : ℤ) : ℚ) + 49/10] := by
      unfold candidates
      rw [hg]
    rw [snap_one _ _ _ hc]
    rw [show ((rhe p - Int.tmod (rhe p) 10 : ℤ) : ℚ) + 49/10
        = (((rhe p).tdiv 10 : ℤ) : ℚ) * 10 + 49/10 by
      rw [sub_tmod_eq]; push_cast; ring]
    exact snap_f49_fixed ref hg _ hj
  | f998 =>
    have hc : candidates ref p
        = [((rhe p - Int.tmod (rhe p) 10 : ℤ) : ℚ) + 998/100,
           ((rhe p - Int.tmod (rhe p) 10 : ℤ) : ℚ) - 2/100] := by
      unfold candidates
      rw [hg]
    rw [snap_two _ _ _ _ hc]
    split_ifs with hd
    · rw [show ((rhe p - Int.tmod (rhe p) 10 : ℤ) : ℚ) - 2/100
          = (((rhe p).tdiv 10 : ℤ) : ℚ) * 10 - 2/100 by
        rw [sub_tmod_eq]; push_cast; ring]
      exact snap_f998_fixed ref hg _
    · rw [show ((rhe p - Int.tmod (rhe p) 10 : ℤ) : ℚ) + 998/100
          = (((rhe p).tdiv 10 + 1 : ℤ) : ℚ) * 10 - 2/100 by
        rw [sub_tmod_eq]; push_cast; ring]
      exact snap_f998_fixed ref hg _
  | f999 =>
    have hc : candidates ref p
        = [((rhe p - Int.tmod (rhe p) 10 : ℤ) : ℚ) + 999/100,
           ((rhe p - Int.tmod (rhe p) 10 : ℤ) : ℚ) - 1/100] := by
      unfold candidates
      rw [hg]
    rw [snap_two _ _ _ _ hc]
    split_ifs with hd
    · rw [show ((rhe p - Int.tmod (rhe p) 10 : ℤ) : ℚ) - 1/100
          = (((rhe p).tdiv 10 : ℤ) : ℚ) * 10 - 1/100 by
        rw [sub_tmod_eq]; push_cast; ring]
      exact snap_f999_fixed ref hg _
    · rw [show ((rhe p - Int.tmod (rhe p) 10 : ℤ) : ℚ) + 999/100
          = (((rhe p).tdiv 10 + 1 : ℤ) : ℚ) * 10 - 1/100 by
        rw [sub_tmod_eq]; push_cast; ring]
      exact snap_f999_fixed ref hg _
  | f99 =>
    have hc : candidates ref p
        = [((rhe p - Int.tmod (rhe p) 10 : ℤ) : ℚ) + 99/10,
           ((rhe p - Int.tmod (rhe p) 10 : ℤ) : ℚ) - 1/10] := by
      unfold candidates
      rw [hg]
    rw [snap_two _ _ _ _ hc]
    split_ifs with hd
    · rw [show ((rhe p - Int.tmod (rhe p) 10 : ℤ) : ℚ) - 1/10
          = (((rhe p).tdiv 10 : ℤ) : ℚ) * 10 - 1/10 by
        rw [sub_tmod_eq]; push_cast; ring]
      exact snap_f99_fixed ref hg _
    · rw [show ((rhe p - Int.tmod (rhe p) 10 : ℤ) : ℚ) + 99/10
          = (((rhe p).tdiv 10 + 1 : ℤ) : ℚ) * 10 - 1/10 by
        rw [sub_tmod_eq]; push_cast; ring]
      exact snap_f99_fixed ref hg _
  | f899 =>
    have hc : candidates ref p
        = [((rhe p - Int.tmod (rhe p) 10 : ℤ) : ℚ) + 899/100,
           ((rhe p - Int.tmod (rhe p) 10 : ℤ) : ℚ) - 101/100] := by
      unfold candidates
      rw [hg]
    rw [snap_two _ _ _ _ hc]
    split_ifs with hd
    · rw [show ((rhe p - Int.tmod (rhe p) 10 : ℤ) : ℚ) - 101/100
          = (((rhe p).tdiv 10 : ℤ) : ℚ) * 10 - 101/100 by
        rw [sub_tmod_eq]; push_cast; ring]
      exact snap_f899_fixed ref hg _
    · rw [show ((rhe p - Int.tmod (rhe p) 10 : ℤ) : ℚ) + 899/100
          = (((rhe p).tdiv 10 + 1 : ℤ) : ℚ) * 10 - 101/100 by
        rw [sub_tmod_eq]; push_cast; ring]
      exact snap_f899_fixed ref hg _
  | generic => exact absurd hg hgen

/-- Evaluation of `snap` in the generic fallback branch. -/
lemma snap_generic_eval (ref : Dec) (h : classify ref = Grid.generic)
    (p : ℚ) (n : ℤ) (hr : rhe p = n) : snap ref p = (n : ℚ) + 99/100 := by
  have hc : candidates ref p = [(n : ℚ) + 99/100] := by
    unfold candidates
    rw [h, hr]
  exact snap_one _ _ _ hc

lemma rhe_1234_100 : rhe (1234/100 : ℚ) = 12 := by
  rw [show (1234/100 : ℚ) = ((12 : ℤ) : ℚ) + 34/100 by norm_num,
    rhe_intCast_add_lt 12 (34/100) (by norm_num) (by norm_num)]

lemma rhe_1299_100 : rhe (1299/100 : ℚ) = 13 := by
  rw [show (1299/100 : ℚ) = ((12 : ℤ) : ℚ) + 99/100 by norm_num,
    rhe_intCast_add_gt 12 (99/100) (by norm_num) (by norm_num)]
  norm_num

/-- C1 (counterexample): with reference price `0.99` — the generic `.99`
fallback grid — rounding `12.34` gives `12.99`, but rounding `12.99` again
gives `13.99`, because the source takes `base_price` with
`to_integral_value()` (round-half-even), which carries `12.99` up to `13`.
So `round(code, round(code, price))` differs from `round(code, price)`. -/
theorem round_off_not_idempotent_cex :
    round_off_price_to_appstore_format [(strL "XX", ⟨99, 2⟩)] (strL "XX") (1234/100)
      = .ok (1299/100)
    ∧ round_off_price_to_appstore_format [(strL "XX", ⟨99, 2⟩)] (strL "XX") (1299/100)
      = .ok (1399/100)
    ∧ (1399/100 : ℚ) ≠ 1299/100 := by
  have hl : lookupD [(strL "XX", (⟨99, 2⟩ : Dec))] (strL "XX") = some ⟨99, 2⟩ := by
    rfl
  have s1 : snap ⟨99, 2⟩ (1234/100) = 1299/100 := by
    rw [snap_generic_eval _ (by decide) _ 12 rhe_1234_100]
    norm_num
  have s2 : snap ⟨99, 2⟩ (1299/100) = 1399/100 := by
    rw [snap_generic_eval _ (by decide) _ 13 rhe_1299_100]
    norm_num
  refine ⟨?_, ?_, by norm_num⟩
  · unfold round_off_price_to_appstore_format
    rw [hl]
    exact congrArg Except.ok s1
  · unfold round_off_price_to_appstore_format
    rw [hl]
    exact congrArg Except.ok s2

/-- C1 (amended): rounding is idempotent for every reference price whose
grid is *not* the generic `.99` fallback branch, with nonnegative prices
where the single-candidate `4.99`/`4.9` grids require it; the generic
fallback (and those two grids at negative prices) are the only
non-idempotent branches. -/
theorem round_off_idempotent_amended
    (table : List (PyStr × Dec)) (code : PyStr) (ref : Dec) (p : ℚ)
    (hl : lookupD table code = some ref)
    (hgen : classify ref ≠ Grid.generic)
    (hpos : classify ref = Grid.f499 ∨ classify ref = Grid.f49 → 0 ≤ p) :
    round_off_price_to_appstore_format table code p = .ok (snap ref p)
    ∧ round_off_price_to_appstore_format table code (snap ref p)
      = .ok (snap ref p) := by
  have hidem := snap_idem_off_generic ref p hgen hpos
  constructor
  · unfold round_off_price_to_appstore_format
    rw [hl]
  · unfold round_off_price_to_appstore_format
    rw [hl]
    exact congrArg Except.ok hidem

/-- Witness for `round_off_idempotent_amended` at reference price `98`
(decade-plus-eight grid) and input price `101`. -/
theorem round_off_idempotent_amended_witness :
    (lookupD [(strL "JP", (⟨98, 0⟩ : Dec))] (strL "JP") = some ⟨98, 0⟩
      ∧ classify ⟨98, 0⟩ ≠ Grid.generic)
    ∧ round_off_price_to_appstore_format [(strL "JP", ⟨98, 0⟩)] (strL "JP") 101
        = .ok (snap ⟨98, 0⟩ 101)
    ∧ round_off_price_to_appstore_format [(strL "JP", ⟨98, 0⟩)] (strL "JP")
        (snap ⟨98, 0⟩ 101) = .ok (snap ⟨98, 0⟩ 101) := by
  refine ⟨⟨by rfl, by decide⟩, ?_⟩
  exact round_off_idempotent_amended _ _ _ _ (by rfl) (by decide) (by decide)

lemma rhe_101_10 : rhe ((101 : ℚ) / 10) = 10 := by
  rw [show ((101 : ℚ) / 10) = ((10 : ℤ) : ℚ) + 1/10 by norm_num,
    rhe_intCast_add_lt 10 (1/10) (by norm_num) (by norm_num)]

/-- C2: a country with reference price `0.99` (generic `.99` grid) rounds
`12.34` to `12.99`; a country with reference price `98` (decade-plus-eight
grid) yields candidates `[108, 98]` for input `101` and returns `98`, the
candidate of minimal absolute distance. -/
theorem round_off_concrete_snaps :
    round_off_price_to_appstore_format [(strL "XX", ⟨99, 2⟩)] (strL "XX") (1234/100)
      = .ok (1299/100)
    ∧ candidates ⟨98, 0⟩ 101 = [108, 98]
    ∧ round_off_price_to_appstore_format [(strL "JP", ⟨98, 0⟩)] (strL "JP") 101
      = .ok 98 := by
  have hcand : candidates ⟨98, 0⟩ 101 = [108, 98] := by
    have h : classify (⟨98, 0⟩ : Dec) = Grid.int8 := by decide
    unfold candidates
    rw [h, rhe_101_10]
    norm_num
  refine ⟨?_, hcand, ?_⟩
  · have s1 : snap ⟨99, 2⟩ (1234/100) = 1299/100 := by
      rw [snap_generic_eval _ (by decide) _ 12 rhe_1234_100]
      norm_num
    unfold round_off_price_to_appstore_format
    rw [show lookupD [(strL "XX", (⟨99, 2⟩ : Dec))] (strL "XX") = some ⟨99, 2⟩ from rfl]
    exact congrArg Except.ok s1
  · have s2 : snap ⟨98, 0⟩ 101 = 98 := by
      unfold snap
      rw [hcand]
      unfold pymin
      norm_num
    unfold round_off_price_to_appstore_format
    rw [show lookupD [(strL "JP", (⟨98, 0⟩ : Dec))] (strL "JP") = some ⟨98, 0⟩ from rfl]
    exact congrArg Except.ok s2

lemma pymin_two_mem (p c1 c2 : ℚ) :
    (if |c2 - p| < |c1 - p| then c2 else c1) ∈ [c1, c2] := by
  split_ifs <;> simp

/-- C10: for every reference price in the table, every classification
branch assigns at least one candidate, so the final minimum-distance
selection is total and the rounded price returned by
`round_off_price_to_appstore_format` is always one of the generated
candidates. -/
theorem candidates_total (table : List (PyStr × Dec)) (code : PyStr)
    (ref : Dec) (p : ℚ) (hl : lookupD table code = some ref) :
    round_off_price_to_appstore_format table code p = .ok (snap ref p)
    ∧ candidates ref p ≠ [] ∧ snap ref p ∈ candidates ref p := by
  refine ⟨by unfold round_off_price_to_appstore_format; rw [hl], ?_⟩
  cases hg : classify ref with
  | int8 =>
    have hc : candidates ref p
        = [(rhe (p / 10) : ℚ) * 10 + 8, (rhe (p / 10) : ℚ) * 10 - 2] := by
      unfold candidates
      rw [hg]
    refine ⟨by rw [hc]; simp, ?_⟩
    rw [snap_two _ _ _ _ hc, hc]
    exact pymin_two_mem p _ _
  | int99 =>
    have hc : candidates ref p
        = [(rhe (p / 100) : ℚ) * 100 + 99, (rhe (p / 100) : ℚ) * 100 - 1] := by
      unfold candidates
      rw [hg]
    refine ⟨by rw [hc]; simp, ?_⟩
    rw [snap_two _ _ _ _ hc, hc]
    exact pymin_two_mem p _ _
  | int0 =>
    have hc : candidates ref p = [(rhe (p / 10) : ℚ) * 10] := by
      unfold candidates
      rw [hg]
    refine ⟨by rw [hc]; simp, ?_⟩
    rw [snap_one _ _ _ hc, hc]
    simp
  | f499 =>
    have hc : candidates ref p
        = [((rhe p - Int.tmod (rhe p) 10 : ℤ) : ℚ) + 499/100] := by
      unfold candidates
      rw [hg]
    refine ⟨by rw [hc]; simp, ?_⟩
    rw [snap_one _ _ _ hc, hc]
    simp
  | f49 =>
    have hc : candidates ref p
        = [((rhe p - Int.tmod (rhe p) 10 : ℤ) : ℚ) + 49/10] := by
      unfold candidates
      rw [hg]
    refine ⟨by rw [hc]; simp, ?_⟩
    rw [snap_one _ _ _ hc, hc]
    simp
  | f998 =>
    have hc : candidates ref p
        = [((rhe p - Int.tmod (rhe p) 10 : ℤ) : ℚ) + 998/100,
           ((rhe p - Int.tmod (rhe p) 10 : ℤ) : ℚ) - 2/100] := by
      unfold candidates
      rw [hg]
    refine ⟨by rw [hc]; simp, ?_⟩
    rw [snap_two _ _ _ _ hc, hc]
    exact pymin_two_mem p _ _
  | f999 =>
    have hc : candidates ref p
        = [((rhe p - Int.tmod (rhe p) 10 : ℤ) : ℚ) + 999/100,
           ((rhe p - Int.tmod (rhe p) 10 : ℤ) : ℚ) - 1/100] := by
      unfold candidates
      rw [hg]
    refine ⟨by rw [hc]; simp, ?_⟩
    rw [snap_two _ _ _ _ hc, hc]
    exact pymin_two_mem p _ _
  | f99 =>
    have hc : candidates ref p
        = [((rhe p - Int.tmod (rhe p) 10 : ℤ) : ℚ) + 99/10,
           ((rhe p - Int.tmod (rhe p) 10 : ℤ) : ℚ) - 1/10] := by
      unfold candidates
      rw [hg]
    refine ⟨by rw [hc]; simp, ?_⟩
    rw [snap_two _ _ _ _ hc, hc]
    exact pymin_two_mem p _ _
  | f899 =>
    have hc : candidates ref p
        = [((rhe p - Int.tmod (rhe p) 10 : ℤ) : ℚ) + 899/100,
           ((rhe p - Int.tmod (rhe p) 10 : ℤ) : ℚ) - 101/100] := by
      unfold candidates
      rw [hg]
    refine ⟨by rw [hc]; simp, ?_⟩
    rw [snap_two _ _ _ _ hc, hc]
    exact pymin_two_mem p _ _
  | generic =>
    have hc : candidates ref p = [(rhe p : ℚ) + 99/100] := by
      unfold candidates
      rw [hg]
    refine ⟨by rw [hc]; simp, ?_⟩
    rw [snap_one _ _ _ hc, hc]
    simp

/-- Witness for `candidates_total` at reference price `0.99` and price
`12.34`. -/
theorem candidates_total_witness :
    lookupD [(strL "XY", (⟨99, 2⟩ : Dec))] (strL "XY") = some ⟨99, 2⟩
    ∧ (round_off_price_to_appstore_format [(strL "XY", ⟨99, 2⟩)] (strL "XY")
          (1234/100) = .ok (snap ⟨99, 2⟩ (1234/100))
        ∧ candidates ⟨99, 2⟩ (1234/100) ≠ []
        ∧ snap ⟨99, 2⟩ (1234/100) ∈ candidates ⟨99, 2⟩ (1234/100)) :=
  ⟨rfl, candidates_total _ _ _ _ rfl⟩

/-- C7: `round_off_price_to_appstore_format` returns the
"No reference price found" error exactly when the country code has no
entry in the reference-price table, and otherwise returns the snapped
price for the code's own reference price — it never falls back to a
default grid.  The embedding is pure: the table is an input, never
modified. -/
theorem round_off_missing_reference (table : List (PyStr × Dec))
    (code : PyStr) (p : ℚ) :
    (round_off_price_to_appstore_format table code p
        = .error (strL "No reference price found for " ++ code)
      ↔ lookupD table code = none)
    ∧ ∀ ref, lookupD table code = some ref →
        round_off_price_to_appstore_format table code p = .ok (snap ref p) := by
  constructor
  · cases hl : lookupD table code with
    | none => simp [round_off_price_to_appstore_format, hl]
    | some ref => simp [round_off_price_to_appstore_format, hl]
  · intro ref hl
    simp [round_off_price_to_appstore_format, hl]

/-- Witness for `round_off_missing_reference`: an empty table errors, a
table holding the code rounds. -/
theorem round_off_missing_reference_witness :
    (round_off_price_to_appstore_format [] (strL "US") 5
        = .error (strL "No reference price found for " ++ strL "US")
      ↔ lookupD ([] : List (PyStr × Dec)) (strL "US") = none)
    ∧ (lookupD [(strL "FR", (⟨999, 0⟩ : Dec))] (strL "FR") = some ⟨999, 0⟩
        ∧ round_off_price_to_appstore_format [(strL "FR", ⟨999, 0⟩)] (strL "FR") 5
          = .ok (snap ⟨999, 0⟩ 5)) :=
  ⟨(round_off_missing_reference [] (strL "US") 5).1,
    rfl, (round_off_missing_reference _ _ _).2 _ rfl⟩

/-! ## Resolver properties -/

lemma findDirect_isSome : ∀ (idx : NameIndex) (name : PyStr),
    (∃ pr ∈ idx, name ∈ pr.2) → ∃ iso, findDirect idx name = some iso
  | [], name, h => by simp at h
  | (iso, names) :: tl, name, h => by
    by_cases hm : name ∈ names
    · exact ⟨iso, by simp [findDirect, hm]⟩
    · have h2 : ∃ pr ∈ tl, name ∈ pr.2 := by
        rcases h with ⟨pr, hpr, hn⟩
        rcases List.mem_cons.mp hpr with rfl | hpr2
        · exact absurd hn hm
        · exact ⟨pr, hpr2, hn⟩
      rcases findDirect_isSome tl name h2 with ⟨iso2, hiso⟩
      exact ⟨iso2, by simp [findDirect, hm, hiso]⟩

/-- C6: when the lowercased input is literally a member of some code's name
set, `get_country_iso_code` resolves it in the exact pass — it returns the
first owning code with the `"-direct"` strategy record, and the result does
not depend on the fuzzy matcher at all (the fuzzy pass is never consulted). -/
theorem direct_pass_priority (idx : NameIndex)
    (e1 e2 : PyStr → List PyStr → PyStr × Nat) (name : PyStr)
    (h : ∃ pr ∈ idx, pyLower name ∈ pr.2) :
    ∃ iso, findDirect idx (pyLower name) = some iso
      ∧ get_country_iso_code idx e1 name
          = (some iso, (some iso, pyLower name, pyLower name ++ strL "-direct"))
      ∧ get_country_iso_code idx e1 name = get_country_iso_code idx e2 name := by
  rcases findDirect_isSome idx (pyLower name) h with ⟨iso, hiso⟩
  refine ⟨iso, hiso, ?_, ?_⟩ <;> simp [get_country_iso_code, hiso]

/-- Witness for `direct_pass_priority` on a one-entry index, with two
fuzzy matchers that disagree everywhere. -/
theorem direct_pass_priority_witness :
    ∃ iso, findDirect [(strL "FR", [strL "france"])] (pyLower (strL "FRANCE"))
        = some iso
      ∧ get_country_iso_code [(strL "FR", [strL "france"])]
          (fun _ _ => ([], 0)) (strL "FRANCE")
          = (some iso, (some iso, pyLower (strL "FRANCE"),
              pyLower (strL "FRANCE") ++ strL "-direct"))
      ∧ get_country_iso_code [(strL "FR", [strL "france"])]
          (fun _ _ => ([], 0)) (strL "FRANCE")
          = get_country_iso_code [(strL "FR", [strL "france"])]
              (fun _ _ => ([], 100)) (strL "FRANCE") :=
  direct_pass_priority _ _ _ _ ⟨(strL "FR", [strL "france"]), by decide, by decide⟩

/-- C5: when the exact pass fails, a best fuzzy score of exactly 80 yields
the unresolved result (the acceptance test is strict `score > 80`), while
any score strictly above 80 yields the first code owning the best match,
for the same candidate set. -/
theorem fuzzy_threshold (idx : NameIndex) (name best iso : PyStr) (sc : ℕ)
    (hdirect : findDirect idx (pyLower name) = none)
    (howner : findOwner idx best = some iso) :
    (get_country_iso_code idx (fun _ _ => (best, 80)) name).1 = none
    ∧ (80 < sc →
        (get_country_iso_code idx (fun _ _ => (best, sc)) name).1 = some iso) := by
  constructor
  · simp [get_country_iso_code, hdirect]
  · intro hsc
    simp [get_country_iso_code, hdirect, hsc, howner]

/-- Witness for `fuzzy_threshold` with scores 80 and 81 on a one-entry
index. -/
theorem fuzzy_threshold_witness :
    (get_country_iso_code [(strL "FR", [strL "france"])]
        (fun _ _ => (strL "france", 80)) (strL "zzz")).1 = none
    ∧ (get_country_iso_code [(strL "FR", [strL "france"])]
        (fun _ _ => (strL "france", 81)) (strL "zzz")).1 = some (strL "FR") :=
  ⟨(fuzzy_threshold _ _ _ (strL "FR") 81 (by decide) (by decide)).1,
    (fuzzy_threshold _ _ _ (strL "FR") 81 (by decide) (by decide)).2 (by decide)⟩

/-- C4 (counterexample): `get_country_iso_code` lowercases its input but
does **not** trim it (`name = name.lower()` only), so an input with added
surrounding whitespace can resolve differently from the trimmed input: with
an index where `"  france "` belongs to `AA` and `"france"` to `BB`,
`"  France "` resolves to `AA` while `"france"` resolves to `BB`. -/
theorem resolve_not_trim_cex :
    (get_country_iso_code
        [(strL "AA", [strL "  france "]), (strL "BB", [strL "france"])]
        (fun _ _ => ([], 0)) (strL "  France ")).1
      = some (strL "AA")
    ∧ (get_country_iso_code
        [(strL "AA", [strL "  france "]), (strL "BB", [strL "france"])]
        (fun _ _ => ([], 0)) (strL "france")).1
      = some (strL "BB")
    ∧ some (strL "AA") ≠ some (strL "BB") := by decide

/-- C4 (amended): the only input normalization is case-folding: resolution
returns identical results (code and audit record) on any two inputs with
the same lowercased form — e.g. `"FRANCE"` and `"france"` — for every index
and every fuzzy matcher. -/
theorem resolve_lower_invariant (idx : NameIndex)
    (extractOne : PyStr → List PyStr → PyStr × Nat) (s t : PyStr)
    (h : pyLower s = pyLower t) :
    get_country_iso_code idx extractOne s
      = get_country_iso_code idx extractOne t := by
  unfold get_country_iso_code
  rw [h]

/-- Witness for `resolve_lower_invariant` at `"FRANCE"` vs `"france"`. -/
theorem resolve_lower_invariant_witness :
    pyLower (strL "FRANCE") = pyLower (strL "france")
    ∧ get_country_iso_code [(strL "FR", [strL "france"])]
        (fun _ _ => ([], 0)) (strL "FRANCE")
      = get_country_iso_code [(strL "FR", [strL "france"])]
        (fun _ _ => ([], 0)) (strL "france") :=
  ⟨by decide, resolve_lower_invariant _ _ _ _ (by decide)⟩

/-! ## Currency-table load properties -/

/-- C3 (code behaviour at a failing input): a multi-country row containing
an unresolvable country name is *not* dropped — after the logged warning
the loop falls through and stores the entry under the unresolved (`None`)
key.  Here `"Atlantis"` does not resolve, yet the built mapping holds an
entry for key `none` recording the `"Atlantis"` row. -/
theorem fetch_inserts_null_key :
    fetch_appstore_country_currency_mapping
      (fun c => if c = strL "France" then some (strL "FR") else none)
      [⟨strL "WW", strL "Rest of World", strL "USD", strL "Atlantis, France"⟩]
      none
      = some ⟨strL "Rest of World", strL "USD", none, strL "Atlantis"⟩ := by
  decide

/-- C8: whenever the storefront's preferred report currency for a code
equals the source currency — in particular whenever the code is absent from
the currency mapping, in which case the source currency itself is the
target — `local_currency_to_appstore_preferred_currency` returns the source
currency with the amount unchanged, for *every* converter function (so the
converter is never consulted). -/
theorem localize_passthrough (mapping : CCMap) (code cur : PyStr) (p : ℚ) :
    (mapping (some code) = none → preferredCurrency mapping code cur = cur)
    ∧ ∀ conv : ℚ → PyStr → PyStr → ℚ,
        preferredCurrency mapping code cur = cur →
        local_currency_to_appstore_preferred_currency conv mapping code p cur
          = (cur, p) := by
  constructor
  · intro h
    simp [preferredCurrency, h]
  · intro conv h
    simp [local_currency_to_appstore_preferred_currency, h]

/-- Witness for `localize_passthrough` on the empty mapping with a
converter that would visibly change the amount. -/
theorem localize_passthrough_witness :
    (CCMap.empty (some (strL "US")) = none →
      preferredCurrency CCMap.empty (strL "US") (strL "USD") = strL "USD")
    ∧ local_currency_to_appstore_preferred_currency (fun p _ _ => p + 1)
        CCMap.empty (strL "US") 5 (strL "USD") = (strL "USD", 5) :=
  ⟨(localize_passthrough CCMap.empty (strL "US") (strL "USD") 5).1,
    (localize_passthrough CCMap.empty (strL "US") (strL "USD") 5).2 _ rfl⟩

lemma foldl_processCountry_preserves (resolver : PyStr → Option PyStr)
    (row : TableRow)
    (hagg : row.regionCode ∈ [strL "EU", strL "LL", strL "WW"])
    (k : Option PyStr) (e : CCEntry) :
    ∀ (names : List PyStr) (m : CCMap), m k = some e →
      (names.foldl (processCountry resolver row) m) k = some e := by
  intro names
  induction names with
  | nil => intro m hm; exact hm
  | cons c cs ih =>
    intro m hm
    apply ih
    unfold processCountry
    split_ifs with hcond
    · exact hm
    · unfold CCMap.update
      by_cases hk : k = resolver c
      · exfalso
        apply hcond
        refine ⟨?_, hagg⟩
        rw [← hk, hm]
        rfl
      · show (if k = resolver c then _ else m k) = some e
        rw [if_neg hk]
        exact hm

/-- C9: once a country code holds an entry, processing a row whose region
code is one of the aggregate groupings `EU`, `LL`, `WW` leaves that entry
unchanged, for every key that is not itself one of the aggregate region
keys (the keys produced by specific, non-aggregate rows). -/
theorem aggregate_non_override (resolver : PyStr → Option PyStr)
    (m : CCMap) (row : TableRow) (k : Option PyStr) (e : CCEntry)
    (hrow : row.regionCode ∈ [strL "EU", strL "LL", strL "WW"])
    (hk : k ∉ [some (strL "EU"), some (strL "LL"), some (strL "WW")])
    (hm : m k = some e) :
    processRow resolver m row k = some e := by
  unfold processRow
  split_ifs with hzz hcomma
  · exact hm
  · exact foldl_processCountry_preserves resolver row hrow k e _ m hm
  · unfold CCMap.update
    have hne : k ≠ some row.regionCode := by
      simp only [List.mem_cons, List.mem_singleton, List.not_mem_nil, or_false] at hrow hk
      push_neg at hk
      rcases hrow with h | h | h <;> rw [h] <;> tauto
    rw [if_neg hne]
    exact hm

/-- Witness for `aggregate_non_override`: a worldwide row listing Vietnam
does not overwrite Vietnam's existing specific-region entry. -/
theorem aggregate_non_override_witness :
    ((strL "WW" : PyStr) ∈ [strL "EU", strL "LL", strL "WW"]
      ∧ (some (strL "VN") : Option PyStr)
          ∉ [some (strL "EU"), some (strL "LL"), some (strL "WW")])
    ∧ processRow (fun _ => some (strL "VN"))
        (CCMap.update CCMap.empty (some (strL "VN"))
          ⟨strL "Vietnam", strL "VND", some (strL "VN"), strL "Vietnam"⟩)
        ⟨strL "WW", strL "Rest of World", strL "USD", strL "Vietnam, Pakistan"⟩
        (some (strL "VN"))
      = some ⟨strL "Vietnam", strL "VND", some (strL "VN"), strL "Vietnam"⟩ :=
  ⟨⟨by decide, by decide⟩,
    aggregate_non_override _ _ _ _ _ (by decide) (by decide) (by decide)⟩

example : classify ⟨98, 0⟩ = Grid.int8 := by decide
example : classify ⟨99, 2⟩ = Grid.generic := by decide
example : classify ⟨999, 0⟩ = Grid.int99 := by decide
example : classify ⟨120, 0⟩ = Grid.int0 := by decide
example : classify ⟨499, 2⟩ = Grid.f499 := by decide
example : classify ⟨149, 1⟩ = Grid.f49 := by decide
example : classify ⟨998, 2⟩ = Grid.f998 := by decide
example : classify ⟨1999, 2⟩ = Grid.f999 := by decide
example : classify ⟨99, 1⟩ = Grid.f99 := by decide
example : classify ⟨899, 2⟩ = Grid.f899 := by decide
example : classify ⟨1234, 2⟩ = Grid.generic := by decide
example : classify ⟨500, 2⟩ = Grid.int0 := by decide
